import Mathlib

/-!
Shallow embedding of the switchboard event-driven netlist interpreter
(src/src/lib.rs) and proofs about it.

Machine-integer conventions: `u16`, `u32` and `usize` values are carried as
`Nat`; `i32` values are carried as `Int`. Where the Rust code performs a
narrowing or sign-changing cast (`as u32`, `as usize`) or where unsigned
arithmetic can wrap, the embedding applies the corresponding modulus
explicitly (release-build wrapping semantics). A Rust panic (remainder by
zero, out-of-bounds index) is modelled by `Option`/`none`.
-/

namespace Switchboard

/-- The modulus 2^32 of `u32` arithmetic. -/
def U32_MOD : Nat := 4294967296

/-- The modulus 2^64 of `usize` arithmetic (64-bit target). -/
def U64_MOD : Nat := 18446744073709551616

/-- The Rust cast `v as u32` for an `i32` value `v`. -/
def i32ToU32 (v : Int) : Nat := (v % (U32_MOD : Int)).toNat

/-- The Rust cast `v as usize` for an `i32` value `v`. -/
def i32ToUsize (v : Int) : Nat := (v % (U64_MOD : Int)).toNat

/-- `struct Event { value: i32 }`. -/
structure Event where
  value : Int
deriving Repr, DecidableEq

/-- `struct Connection { cell_id: u16, port: u16 }`. -/
structure Connection where
  cell_id : Nat
  port : Nat
deriving Repr, DecidableEq

/-- The reserved sentinel `0xFFFF`: deliver to the external output sink. -/
def EXT : Nat := 65535

/-- `enum InferPrimitiveError`. -/
inductive InferPrimitiveError where
  | wrongPortCount
  | badType
  | wrongParamCount
deriving Repr, DecidableEq

/-- `struct PrimitiveDescriptor { typecode, out_ports, params }`. -/
structure PrimitiveDescriptor where
  typecode : Nat
  out_ports : List (List Connection)
  params : List Int
deriving Repr, DecidableEq

/-- `struct Mux { select: usize, output: Vec<Connection>, inputs: Vec<i32> }`. -/
structure Mux where
  select : Nat
  output : List Connection
  inputs : List Int
deriving Repr, DecidableEq

/-- `Mux::try_from(PrimitiveDescriptor)`. -/
def Mux.tryFrom (d : PrimitiveDescriptor) : Except InferPrimitiveError Mux :=
  if d.typecode ≠ 1 then .error .badType
  else if d.params.length ≠ 1 then .error .wrongParamCount
  else if d.out_ports.length ≠ 1 then .error .wrongPortCount
  else .ok ⟨0, d.out_ports.headD [], List.replicate (i32ToUsize (d.params.getD 0 0)) 0⟩

/-- `<Mux as Primitive>::dispatch`. The guard `port > inputs.len()` returns
early; `port == inputs.len()` is the select port; smaller ports store the
value. Afterwards, if `select < inputs.len()`, the selected input is emitted
on every output connection. The index `inputs[select]` is guarded by that
comparison, so `getD` is exact. -/
def Mux.dispatch (m : Mux) (port : Nat) (e : Event) : Mux × List (Connection × Event) :=
  if m.inputs.length < port then (m, [])
  else
    let m' : Mux :=
      if port = m.inputs.length then { m with select := i32ToUsize e.value }
      else { m with inputs := m.inputs.set port e.value }
    if m'.select < m'.inputs.length then
      (m', m'.output.map (fun c => (c, ⟨m'.inputs.getD m'.select 0⟩)))
    else (m', [])

/-- `struct Demux { select: u32, outputs: Vec<Vec<Connection>> }`. -/
structure Demux where
  select : Nat
  outputs : List (List Connection)
deriving Repr, DecidableEq

/-- `Demux::try_from(PrimitiveDescriptor)`: checks the typecode and that the
parameter list is empty; the output-port count is not examined. -/
def Demux.tryFrom (d : PrimitiveDescriptor) : Except InferPrimitiveError Demux :=
  if d.typecode ≠ 2 then .error .badType
  else if d.params.length ≠ 0 then .error .wrongParamCount
  else .ok ⟨0, d.out_ports⟩

/-- `<Demux as Primitive>::dispatch`. Port 0 forwards the event to the
selected output list when `select` is in range; port 1 stores
`event.value as u32`; other ports do nothing. The index
`outputs[select]` is guarded, so `getD` is exact. -/
def Demux.dispatch (dm : Demux) (port : Nat) (e : Event) : Demux × List (Connection × Event) :=
  if port = 0 then
    if dm.select < dm.outputs.length then
      (dm, (dm.outputs.getD dm.select []).map (fun c => (c, e)))
    else (dm, [])
  else if port = 1 then
    ({ dm with select := i32ToU32 e.value }, [])
  else (dm, [])

/-- `struct Levels { levels: Vec<i32>, select: u32, output: Vec<Connection> }`. -/
structure Levels where
  levels : List Int
  select : Nat
  output : List Connection
deriving Repr, DecidableEq

/-- `Levels::try_from(PrimitiveDescriptor)`: checks the typecode and that
there is exactly one output port; the parameter list becomes `levels`. -/
def Levels.tryFrom (d : PrimitiveDescriptor) : Except InferPrimitiveError Levels :=
  if d.typecode ≠ 0 then .error .badType
  else if d.out_ports.length ≠ 1 then .error .wrongPortCount
  else .ok ⟨d.params, 0, d.out_ports.headD []⟩

/-- `<Levels as Primitive>::init`: when the level list is nonempty, emit
`levels[0]` on every output connection. -/
def Levels.init (l : Levels) : List (Connection × Event) :=
  if l.levels.length = 0 then []
  else l.output.map (fun c => (c, ⟨l.levels.getD 0 0⟩))

/-- `<Levels as Primitive>::dispatch`. A zero-valued event is ignored.
Port 0 computes `(select + 1) % (levels.len() as u32)` and port 1 computes
`(select - 1) % (levels.len() as u32)` in `u32` arithmetic: the addition and
the (wrapping, release-build) subtraction are taken mod 2^32, and a zero
divisor — the `levels` list empty (or of length exactly 2^32 after the
`as u32` cast) — is a Rust panic, modelled as `none`, as is the subsequent
out-of-bounds index. Other ports return without firing. -/
def Levels.dispatch (l : Levels) (port : Nat) (e : Event) :
    Option (Levels × List (Connection × Event)) :=
  if e.value = 0 then some (l, [])
  else
    let len32 : Nat := l.levels.length % U32_MOD
    if port = 0 then
      if len32 = 0 then none
      else
        let s := (l.select + 1) % U32_MOD % len32
        match l.levels[s]? with
        | none => none
        | some v => some ({ l with select := s }, l.output.map (fun c => (c, ⟨v⟩)))
    else if port = 1 then
      if len32 = 0 then none
      else
        let s := (l.select + (U32_MOD - 1)) % U32_MOD % len32
        match l.levels[s]? with
        | none => none
        | some v => some ({ l with select := s }, l.output.map (fun c => (c, ⟨v⟩)))
    else some (l, [])

/-- `struct Bool { output: Vec<Connection> }` (named `BoolCell` here because
`Bool` is taken in Lean). -/
structure BoolCell where
  output : List Connection
deriving Repr, DecidableEq

/-- `Bool::try_from(PrimitiveDescriptor)`. -/
def BoolCell.tryFrom (d : PrimitiveDescriptor) : Except InferPrimitiveError BoolCell :=
  if d.typecode ≠ 3 then .error .badType
  else if d.out_ports.length ≠ 1 then .error .wrongPortCount
  else if d.params.length ≠ 0 then .error .wrongParamCount
  else .ok ⟨d.out_ports.headD []⟩

/-- `<Bool as Primitive>::dispatch`: port 0 emits 1, port 1 emits 0, port 2
echoes the event value, other ports do nothing. -/
def BoolCell.dispatch (b : BoolCell) (port : Nat) (e : Event) :
    BoolCell × List (Connection × Event) :=
  if port = 0 then (b, b.output.map (fun c => (c, ⟨1⟩)))
  else if port = 1 then (b, b.output.map (fun c => (c, ⟨0⟩)))
  else if port = 2 then (b, b.output.map (fun c => (c, e)))
  else (b, [])

/-- The closed set of primitive cells held in `cells[]` (the Rust code boxes
them behind `dyn Primitive`; a tagged sum is the faithful pure rendering). -/
inductive Prim where
  | levels : Levels → Prim
  | mux : Mux → Prim
  | demux : Demux → Prim
  | boolCell : BoolCell → Prim
deriving Repr, DecidableEq

/-- Dynamic dispatch over the cell variants; `none` propagates a panic. -/
def Prim.dispatch (p : Prim) (port : Nat) (e : Event) :
    Option (Prim × List (Connection × Event)) :=
  match p with
  | .levels l => (l.dispatch port e).map (fun r => (.levels r.1, r.2))
  | .mux m => some (.mux (m.dispatch port e).1, (m.dispatch port e).2)
  | .demux dm => some (.demux (dm.dispatch port e).1, (dm.dispatch port e).2)
  | .boolCell b => some (.boolCell (b.dispatch port e).1, (b.dispatch port e).2)

/-- The `Primitive::init` hook: only `Levels` overrides the empty default. -/
def Prim.init (p : Prim) : List (Connection × Event) :=
  match p with
  | .levels l => l.init
  | _ => []

/-- `build_primitive`: route the descriptor to the factory selected by
`PrimitiveType::from(typecode)` (0 = Levels, 1 = Mux, 2 = Demux, 3 = Bool). -/
def buildPrimitive (d : PrimitiveDescriptor) : Except InferPrimitiveError Prim :=
  match d.typecode with
  | 0 => (Levels.tryFrom d).map .levels
  | 1 => (Mux.tryFrom d).map .mux
  | 2 => (Demux.tryFrom d).map .demux
  | 3 => (BoolCell.tryFrom d).map .boolCell
  | _ => .error .badType

/-- `enum DecodingError`. -/
inductive DecodingError where
  | insufficientBytes
  | badPrimitive
  | countTooLarge
deriving Repr, DecidableEq

/-- A `BinaryReader`-style parser: byte data plus a cursor position, returning
the parsed value and the new position, or a `DecodingError`. -/
def Parser (α : Type) : Type := List Nat → Nat → Except DecodingError (α × Nat)

/-- A parser that consumes nothing and returns `a`. -/
def ppure {α : Type} (a : α) : Parser α := fun _ p => .ok (a, p)

/-- Sequential composition of parsers (the `?` operator chaining). -/
def pbind {α β : Type} (m : Parser α) (f : α → Parser β) : Parser β := fun d p =>
  match m d p with
  | .error e => .error e
  | .ok (a, q) => f a d q

/-- `BinaryReader::read_u16`: checks `remaining() < 2`, reads little-endian. -/
def readU16 : Parser Nat := fun d p =>
  if d.length - p < 2 then .error .insufficientBytes
  else .ok (d.getD p 0 + 256 * d.getD (p + 1) 0, p + 2)

/-- `BinaryReader::read_u32`: checks `remaining() < 4`, reads little-endian. -/
def readU32 : Parser Nat := fun d p =>
  if d.length - p < 4 then .error .insufficientBytes
  else .ok (d.getD p 0 + 256 * d.getD (p + 1) 0 + 65536 * d.getD (p + 2) 0
      + 16777216 * d.getD (p + 3) 0, p + 4)

/-- `BinaryReader::read_i32`: a little-endian `u32` reinterpreted as `i32`
(two's complement). -/
def readI32 : Parser Int := fun d p =>
  if d.length - p < 4 then .error .insufficientBytes
  else
    let u : Nat := d.getD p 0 + 256 * d.getD (p + 1) 0 + 65536 * d.getD (p + 2) 0
      + 16777216 * d.getD (p + 3) 0
    .ok (if u < 2147483648 then (u : Int) else (u : Int) - (U32_MOD : Int), p + 4)

/-- `BinaryReader::skip(n)`. -/
def skipP (n : Nat) : Parser Unit := fun d p =>
  if d.length - p < n then .error .insufficientBytes
  else .ok ((), p + n)

/-- One of the decoder's `CountTooLarge` guards: fails when `b` holds. -/
def guardCount (b : Bool) : Parser Unit := fun _ p =>
  if b then .error .countTooLarge else .ok ((), p)

/-- `build_primitive(..).map_err(|_| BadPrimitive)` lifted into the parser. -/
def liftBuild (d : PrimitiveDescriptor) : Parser Prim := fun _ p =>
  match buildPrimitive d with
  | .ok prim => .ok (prim, p)
  | .error _ => .error .badPrimitive

/-- Run a record parser `n` times, collecting results in order (the decoder's
`for _ in 0..n` loops). -/
def replicateP {α : Type} : Nat → Parser α → Parser (List α)
  | 0, _ => ppure []
  | n + 1, m => pbind m fun a => pbind (replicateP n m) fun as => ppure (a :: as)

/-- `read_connection_list`: `n` pairs of `u16 cell_id, u16 port`. -/
def readConnectionList (n : Nat) : Parser (List Connection) :=
  replicateP n (pbind readU16 fun cid => pbind readU16 fun port => ppure ⟨cid, port⟩)

/-- One record of `read_input_list`: id, skipped name, connection list. -/
def readInputRecord : Parser (Nat × List Connection) :=
  pbind readU16 fun id => pbind readU16 fun nameSize =>
  pbind (skipP nameSize) fun _ => pbind readU16 fun nConn =>
  pbind (readConnectionList nConn) fun conns => ppure (id, conns)

/-- `read_input_list`: `n` input records. -/
def readInputList (n : Nat) : Parser (List (Nat × List Connection)) :=
  replicateP n readInputRecord

/-- One cell record of `from_netlist`: typecode, params (count-checked),
output lists (count-checked), then the primitive factory. -/
def readCell : Parser Prim :=
  pbind readU16 fun typecode =>
  pbind readU16 fun nParams =>
  pbind (guardCount (decide (256 < nParams))) fun _ =>
  pbind (replicateP nParams readI32) fun params =>
  pbind readU16 fun nOutputs =>
  pbind (guardCount (decide (256 < nOutputs))) fun _ =>
  pbind (replicateP nOutputs
    (pbind readU16 fun nConn =>
     pbind (guardCount (decide (256 < nConn))) fun _ =>
     readConnectionList nConn)) fun outputs =>
  liftBuild ⟨typecode, outputs, params⟩

/-- `struct PinInput { pin: u16, connections: Vec<Connection> }`. -/
structure PinInput where
  pin : Nat
  connections : List Connection
deriving Repr, DecidableEq

/-- `struct SoftwareInput { addr: u16, connections: Vec<Connection> }`. -/
structure SoftwareInput where
  addr : Nat
  connections : List Connection
deriving Repr, DecidableEq

/-- `struct EventSystem { software_ports, input_ports, cells }`. -/
structure EventSystem where
  software_ports : List SoftwareInput
  input_ports : List PinInput
  cells : List Prim
deriving Repr, DecidableEq

/-- `EventSystem::from_netlist` as a parser: pin inputs (count ≤ 32),
software inputs (count ≤ 256), cells (count ≤ 256). -/
def fromNetlistP : Parser EventSystem :=
  pbind readU16 fun nPin =>
  pbind (guardCount (decide (32 < nPin))) fun _ =>
  pbind (readInputList nPin) fun pinRecs =>
  pbind readU16 fun nSw =>
  pbind (guardCount (decide (256 < nSw))) fun _ =>
  pbind (readInputList nSw) fun swRecs =>
  pbind readU32 fun nCells =>
  pbind (guardCount (decide (256 < nCells))) fun _ =>
  pbind (replicateP nCells readCell) fun cells =>
  ppure ⟨swRecs.map (fun r => ⟨r.1, r.2⟩), pinRecs.map (fun r => ⟨r.1, r.2⟩), cells⟩

/-- `EventSystem::from_netlist(data)` run from position 0; the final cursor
position (number of consumed bytes) is returned alongside the system. -/
def fromNetlist (d : List Nat) : Except DecodingError (EventSystem × Nat) :=
  fromNetlistP d 0

/-- Push a list of sink emissions, in emission order, onto the pending stack.
Rust pushes onto the end of a `Vec` and pops from the end; we keep the head
of the list as the top of the stack, so pushing `outs` one by one yields
`outs.reverse ++ q`. -/
def pushAll (q outs : List (Connection × Event)) : List (Connection × Event) :=
  outs.reverse ++ q

/-- The drain loop shared by `init` and `process_event`: pop the most recently
pushed `(Connection, Event)` pair; the `0xFFFF` sentinel delivers to the
external sink (outputs are returned in delivery order), valid cell indices
dispatch (their sink pushes back onto the stack), out-of-range indices drop
the event. `fuel` bounds the number of iterations (the Rust loop has no such
bound and may diverge on cyclic netlists); exhausted fuel with work left, or
a panicking dispatch, gives `none`. -/
def drain (fuel : Nat) (cells : List Prim) (q : List (Connection × Event)) :
    Option (List Prim × List (Nat × Event)) :=
  match fuel with
  | 0 => match q with
    | [] => some (cells, [])
    | _ :: _ => none
  | fuel + 1 =>
    match q with
    | [] => some (cells, [])
    | (c, e) :: rest =>
      if c.cell_id = EXT then
        (drain fuel cells rest).map (fun r => (r.1, (c.port, e) :: r.2))
      else
        match cells[c.cell_id]? with
        | none => drain fuel cells rest
        | some cell =>
          match cell.dispatch c.port e with
          | none => none
          | some (cell', emits) => drain fuel (cells.set c.cell_id cell') (pushAll rest emits)

/-- `EventSystem::process_event`: dispatch the stimulus on the target input
port (a pin or software input fans the event out to each of its connections
in order) and drain the pending stack. -/
def processEvent (fuel : Nat) (cells : List Prim) (conns : List Connection) (value : Int) :
    Option (List Prim × List (Nat × Event)) :=
  drain fuel cells (pushAll [] (conns.map (fun c => (c, ⟨value⟩))))

/-- `EventSystem::init`: every cell's `init` hook pushes its emissions in
declaration order, then the stack is drained. -/
def EventSystem.init (fuel : Nat) (sys : EventSystem) :
    Option (List Prim × List (Nat × Event)) :=
  drain fuel sys.cells (sys.cells.foldl (fun q c => pushAll q c.init) [])

/-- `EventSystem::process_hw_event`: linear search of `input_ports` for the
first entry with the given pin id; absent pins are a silent no-op. -/
def EventSystem.processHwEvent (fuel : Nat) (sys : EventSystem) (pin : Nat) (value : Int) :
    Option (List Prim × List (Nat × Event)) :=
  match sys.input_ports.find? (fun p => p.pin == pin) with
  | none => some (sys.cells, [])
  | some target => processEvent fuel sys.cells target.connections value

/-- `EventSystem::process_sw_event`: same against `software_ports`. -/
def EventSystem.processSwEvent (fuel : Nat) (sys : EventSystem) (addr : Nat) (value : Int) :
    Option (List Prim × List (Nat × Event)) :=
  match sys.software_ports.find? (fun p => p.addr == addr) with
  | none => some (sys.cells, [])
  | some target => processEvent fuel sys.cells target.connections value

/-- C1: on a `Levels` cell with an empty level list, `init` emits nothing, but
`dispatch` of a nonzero-valued event on port 0 or port 1 reaches
`(select ± 1) % (levels.len() as u32)` with a zero divisor — a Rust panic
(`none`), not the no-op the claim states. -/
theorem c1_empty_levels_dispatch_panics :
    Levels.init ⟨[], 0, [⟨EXT, 0⟩]⟩ = []
    ∧ Levels.dispatch ⟨[], 0, [⟨EXT, 0⟩]⟩ 0 ⟨1⟩ = none
    ∧ Levels.dispatch ⟨[], 0, [⟨EXT, 0⟩]⟩ 1 ⟨1⟩ = none := by
  refine ⟨rfl, rfl, rfl⟩

/-- C2: decrementing a `Levels` cell with `L = [1, 2, 3]` from `select = 0`
sets the cursor to `(2^32 - 1) % 3 = 0` and emits `L[0] = 1`, whereas the
claimed update `(select + |L| - 1) mod |L|` would give cursor 2 and emit
`L[2] = 3`. -/
theorem c2_decrement_wraps_through_u32 :
    Levels.dispatch ⟨[1, 2, 3], 0, [⟨EXT, 0⟩]⟩ 1 ⟨1⟩
      = some (⟨[1, 2, 3], 0, [⟨EXT, 0⟩]⟩, [(⟨EXT, 0⟩, ⟨1⟩)])
    ∧ (0 + 3 - 1) % 3 = 2 := by
  refine ⟨rfl, rfl⟩

/-- C3 counterexample: the `Demux` factory accepts a descriptor with zero
output ports (the claim says it is rejected). -/
theorem c3_counterexample_zero_output_demux_accepted :
    buildPrimitive ⟨2, [], []⟩ = .ok (.demux ⟨0, []⟩) := rfl

/-- C3 (amended): for a descriptor with typecode 2, the factory succeeds if
and only if the parameter list is empty; the output-port count is not
checked. -/
theorem c3_demux_factory_ok_iff_no_params (d : PrimitiveDescriptor)
    (h : d.typecode = 2) : (buildPrimitive d).isOk = true ↔ d.params = [] := by
  obtain ⟨tc, op, ps⟩ := d
  simp only at h
  subst h
  cases ps with
  | nil => simp [buildPrimitive, Demux.tryFrom, Except.map, Except.isOk, Except.toBool]
  | cons a as => simp [buildPrimitive, Demux.tryFrom, Except.map, Except.isOk, Except.toBool]

/-- C3 witness: the amended equivalence evaluated on a concrete zero-param,
one-output descriptor. -/
theorem c3_demux_factory_witness :
    (buildPrimitive ⟨2, [[⟨0, 0⟩]], []⟩).isOk = true ↔ ([] : List Int) = [] :=
  c3_demux_factory_ok_iff_no_params ⟨2, [[⟨0, 0⟩]], []⟩ rfl

/-- C8: a `Mux` whose `inputs` list is empty (the cell built from parameter
`n = 0`) never emits: every port either returns early or lands in the select
branch, and `select < 0` is impossible. The second conjunct shows the factory
at `n = 0` does build such a cell. -/
theorem c8_mux_zero_inputs_never_emits :
    (∀ (sel : Nat) (out : List Connection) (port : Nat) (e : Event),
      (Mux.dispatch ⟨sel, out, []⟩ port e).2 = [])
    ∧ Mux.tryFrom ⟨1, [[⟨EXT, 0⟩]], [0]⟩ = .ok ⟨0, [⟨EXT, 0⟩], []⟩ := by
  constructor
  · intro sel out port e
    cases port with
    | zero => simp [Mux.dispatch]
    | succ n => simp [Mux.dispatch]
  · rfl

/-- C10: a `Demux` dispatch on port 0 (and on any port other than 1) returns
the cell state unchanged; only port 1 writes `select`. -/
theorem c10_demux_data_port_preserves_state :
    (∀ (dm : Demux) (e : Event), (Demux.dispatch dm 0 e).1 = dm)
    ∧ (∀ (dm : Demux) (port : Nat) (e : Event), port ≠ 1 →
        (Demux.dispatch dm port e).1 = dm) := by
  constructor
  · intro dm e
    by_cases hs : dm.select < dm.outputs.length <;> simp [Demux.dispatch, hs]
  · intro dm port e h
    by_cases hp : port = 0
    · subst hp
      by_cases hs : dm.select < dm.outputs.length <;> simp [Demux.dispatch, hs]
    · simp [Demux.dispatch, hp, h]

/-- C10 witness: the port-hypothesis case evaluated at port 0 on a concrete
cell. -/
theorem c10_demux_witness :
    (Demux.dispatch ⟨0, [[⟨EXT, 0⟩]]⟩ 0 ⟨5⟩).1 = (⟨0, [[⟨EXT, 0⟩]]⟩ : Demux) :=
  c10_demux_data_port_preserves_state.2 ⟨0, [[⟨EXT, 0⟩]]⟩ 0 ⟨5⟩ (by decide)

/-- A one-cell system for the LIFO scenario: pin 5 feeds port 2 of a `Bool`
cell whose single output fans out to external ports 0 and 1, in that order. -/
def lifoHwSys : EventSystem := ⟨[], [⟨5, [⟨0, 2⟩]⟩], [.boolCell ⟨[⟨EXT, 0⟩, ⟨EXT, 1⟩]⟩]⟩

/-- A one-cell system for the LIFO `init` scenario: a `Levels` cell whose
output fans out to external ports 0 and 1, in that order. -/
def lifoInitSys : EventSystem := ⟨[], [], [.levels ⟨[42], 0, [⟨EXT, 0⟩, ⟨EXT, 1⟩]⟩]⟩

/-- C5: the engine drains pending pairs in LIFO order. First conjunct: the
pair at the top of the stack (the most recently pushed) is handled next —
for an external connection it is delivered before everything below it.
Second and third conjuncts: in a stimulus (resp. `init`) whose dispatch fans
out to external ports 0 then 1 in list order, the later-listed port 1
receives its event first. -/
theorem c5_lifo_drain_order :
    (∀ (fuel : Nat) (cells : List Prim) (q : List (Connection × Event)) (p : Nat) (e : Event),
      drain (fuel + 1) cells ((⟨EXT, p⟩, e) :: q)
        = (drain fuel cells q).map (fun r => (r.1, (p, e) :: r.2)))
    ∧ EventSystem.processHwEvent 4 lifoHwSys 5 7
        = some ([.boolCell ⟨[⟨EXT, 0⟩, ⟨EXT, 1⟩]⟩], [(1, ⟨7⟩), (0, ⟨7⟩)])
    ∧ EventSystem.init 4 lifoInitSys
        = some ([.levels ⟨[42], 0, [⟨EXT, 0⟩, ⟨EXT, 1⟩]⟩], [(1, ⟨42⟩), (0, ⟨42⟩)]) := by
  refine ⟨?_, rfl, rfl⟩
  intro fuel cells q p e
  simp [drain]

/-- Iterate `dispatch(port 0, e)` on a `Levels` cell `n` times, threading the
state and propagating a panic. -/
def Levels.incN (l : Levels) (e : Event) : Nat → Option Levels
  | 0 => some l
  | n + 1 => (l.dispatch 0 e).bind (fun r => Levels.incN r.1 e n)

/-- One increment step of `Levels` under the cursor invariant: the cursor
advances to `(select + 1) % |L|`. -/
lemma levels_inc_step (l : Levels) (e : Event) (hv : e.value ≠ 0)
    (h0 : 0 < l.levels.length) (hlen : l.levels.length < U32_MOD)
    (hsel : l.select < l.levels.length) :
    l.dispatch 0 e
      = some ({ l with select := (l.select + 1) % l.levels.length },
          l.output.map (fun c =>
            (c, ⟨l.levels.getD ((l.select + 1) % l.levels.length) 0⟩))) := by
  have hm : l.levels.length % U32_MOD = l.levels.length := Nat.mod_eq_of_lt hlen
  have hs1 : (l.select + 1) % U32_MOD = l.select + 1 := Nat.mod_eq_of_lt (by omega)
  have hlt : (l.select + 1) % l.levels.length < l.levels.length := Nat.mod_lt _ h0
  have hget : l.levels[(l.select + 1) % l.levels.length]?
      = some (l.levels.getD ((l.select + 1) % l.levels.length) 0) := by
    rw [List.getD_eq_getElem?_getD, List.getElem?_eq_getElem hlt]
    rfl
  simp only [Levels.dispatch, if_neg hv, hm, hs1, if_true]
  rw [if_neg (show ¬ l.levels.length = 0 by omega), hget]

/-- Iterating the increment `k` times moves the cursor to
`(select + k) % |L|` and leaves everything else unchanged. -/
lemma levels_incN_select (e : Event) (hv : e.value ≠ 0) :
    ∀ (k : Nat) (l : Levels), 0 < l.levels.length → l.levels.length < U32_MOD →
      l.select < l.levels.length →
      Levels.incN l e k = some { l with select := (l.select + k) % l.levels.length } := by
  intro k
  induction k with
  | zero =>
    intro l h0 hlen hsel
    simp [Levels.incN, Nat.mod_eq_of_lt hsel]
  | succ n ih =>
    intro l h0 hlen hsel
    have hstep := levels_inc_step l e hv h0 hlen hsel
    have hlt : (l.select + 1) % l.levels.length < l.levels.length := Nat.mod_lt _ h0
    show (l.dispatch 0 e).bind (fun r => Levels.incN r.1 e n) = _
    rw [hstep]
    show Levels.incN { l with select := (l.select + 1) % l.levels.length } e n = _
    rw [ih { l with select := (l.select + 1) % l.levels.length } h0 hlen hlt]
    have harith : ((l.select + 1) % l.levels.length + n) % l.levels.length
        = (l.select + (n + 1)) % l.levels.length := by
      rw [Nat.mod_add_mod]
      have h2 : l.select + 1 + n = l.select + (n + 1) := by omega
      rw [h2]
    simp [harith]

/-- C7: on a `Levels` cell with nonempty `L` (of realistic length, below
2^32) and a cursor inside `[0, |L|)`, dispatching a nonzero event on port 0
exactly `|L|` times returns the cell — in particular the cursor — to its
starting state. -/
theorem c7_levels_increment_period (l : Levels) (e : Event) (hv : e.value ≠ 0)
    (h0 : 0 < l.levels.length) (hlen : l.levels.length < U32_MOD)
    (hsel : l.select < l.levels.length) :
    Levels.incN l e l.levels.length = some l := by
  rw [levels_incN_select e hv l.levels.length l h0 hlen hsel]
  congr 1
  have : (l.select + l.levels.length) % l.levels.length = l.select := by
    rw [Nat.add_mod_right]
    exact Nat.mod_eq_of_lt hsel
  simp [this]

/-- C7 witness: two increments on a two-level cell starting at cursor 1. -/
theorem c7_levels_increment_witness :
    (1 : Int) ≠ 0 ∧ 0 < ([10, 20] : List Int).length
    ∧ ([10, 20] : List Int).length < U32_MOD
    ∧ (1 : Nat) < ([10, 20] : List Int).length
    ∧ Levels.incN ⟨[10, 20], 1, []⟩ ⟨1⟩ ([10, 20] : List Int).length
        = some ⟨[10, 20], 1, []⟩ :=
  ⟨by decide, by decide, by decide, by decide,
    c7_levels_increment_period ⟨[10, 20], 1, []⟩ ⟨1⟩ (by decide) (by decide)
      (by decide) (by decide)⟩

/-- `find?` returns the first element satisfying the predicate: scanning past
a non-matching block `xs` lands on `y`. -/
lemma find?_append_first {α : Type} (p : α → Bool) (xs : List α) (y : α) (zs : List α)
    (hy : p y = true) (hxs : ∀ x ∈ xs, p x = false) :
    (xs ++ y :: zs).find? p = some y := by
  induction xs with
  | nil => simp [List.find?_cons_of_pos _ hy]
  | cons a as ih =>
    have ha : p a = false := hxs a (List.mem_cons_self a as)
    simp only [List.cons_append]
    rw [List.find?_cons_of_neg _ (by simp [ha])]
    exact ih (fun x hx => hxs x (List.mem_cons_of_mem a hx))

/-- C9: when several pin inputs (resp. software inputs) share an id, a
stimulus with that id is dispatched to the first match in declaration order;
the result does not depend on the later duplicates. -/
theorem c9_first_matching_input_wins :
    (∀ (fuel : Nat) (sys : EventSystem) (pin : Nat) (v : Int)
        (xs : List PinInput) (y : PinInput) (zs : List PinInput),
      sys.input_ports = xs ++ y :: zs → y.pin = pin → (∀ x ∈ xs, x.pin ≠ pin) →
      EventSystem.processHwEvent fuel sys pin v
        = processEvent fuel sys.cells y.connections v)
    ∧ (∀ (fuel : Nat) (sys : EventSystem) (addr : Nat) (v : Int)
        (xs : List SoftwareInput) (y : SoftwareInput) (zs : List SoftwareInput),
      sys.software_ports = xs ++ y :: zs → y.addr = addr → (∀ x ∈ xs, x.addr ≠ addr) →
      EventSystem.processSwEvent fuel sys addr v
        = processEvent fuel sys.cells y.connections v) := by
  constructor
  · intro fuel sys pin v xs y zs hports hy hxs
    unfold EventSystem.processHwEvent
    rw [hports, find?_append_first (fun p => p.pin == pin) xs y zs (by simp [hy])
      (fun x hx => by simp [hxs x hx])]
  · intro fuel sys addr v xs y zs hports hy hxs
    unfold EventSystem.processSwEvent
    rw [hports, find?_append_first (fun p => p.addr == addr) xs y zs (by simp [hy])
      (fun x hx => by simp [hxs x hx])]

/-- C9 witness: two pin inputs both with pin id 3; the stimulus resolves to
the first one's connection list. -/
theorem c9_first_matching_input_witness :
    EventSystem.processHwEvent 2 ⟨[], [⟨3, [⟨EXT, 0⟩]⟩, ⟨3, [⟨EXT, 1⟩]⟩], []⟩ 3 9
      = processEvent 2 [] [⟨EXT, 0⟩] 9 :=
  c9_first_matching_input_wins.1 2 ⟨[], [⟨3, [⟨EXT, 0⟩]⟩, ⟨3, [⟨EXT, 1⟩]⟩], []⟩ 3 9
    [] ⟨3, [⟨EXT, 0⟩]⟩ [⟨3, [⟨EXT, 1⟩]⟩] rfl rfl (by simp)

/-- A parser is monotone: on success the cursor never moves backwards. -/
def Mono {α : Type} (P : Parser α) : Prop :=
  ∀ d p a q, P d p = .ok (a, q) → p ≤ q

/-- Prefix stability: when a parser succeeds on `d` ending at `q`, then on
the truncation `d.take m` (for `p ≤ m`) it either succeeds identically
(when it never needed bytes at or past `m`) or fails with
`InsufficientBytes` (when the truncation cut it short). -/
def Stable {α : Type} (P : Parser α) : Prop :=
  ∀ d p a q m, P d p = .ok (a, q) → p ≤ m →
    (q ≤ m → P (d.take m) p = .ok (a, q)) ∧
    (m < q → P (d.take m) p = .error .insufficientBytes)

/-- Monotone and prefix-stable. -/
def Good {α : Type} (P : Parser α) : Prop := Mono P ∧ Stable P

/-- Reading an element of a list truncated beyond the index is unchanged. -/
lemma getD_take (d : List Nat) (m i : Nat) (h : i < m) :
    (d.take m).getD i 0 = d.getD i 0 := by
  simp [List.getD_eq_getElem?_getD, List.getElem?_take, h]

lemma good_ppure {α : Type} (a : α) : Good (ppure a) := by
  constructor
  · intro d p b q h
    simp only [ppure, Except.ok.injEq, Prod.mk.injEq] at h
    omega
  · intro d p b q m h hpm
    simp only [ppure, Except.ok.injEq, Prod.mk.injEq] at h
    obtain ⟨rfl, rfl⟩ := h
    exact ⟨fun _ => rfl, fun hmq => absurd hpm (by omega)⟩

lemma good_readU16 : Good readU16 := by
  constructor
  · intro d p a q h
    simp only [readU16] at h
    split at h
    · cases h
    · simp only [Except.ok.injEq, Prod.mk.injEq] at h
      omega
  · intro d p a q m h hpm
    simp only [readU16] at h
    split at h
    · cases h
    case isFalse hrem =>
      simp only [Except.ok.injEq, Prod.mk.injEq] at h
      obtain ⟨ha, hq⟩ := h
      constructor
      · intro hqm
        simp only [readU16, List.length_take]
        rw [if_neg (by omega)]
        rw [getD_take d m p (by omega), getD_take d m (p + 1) (by omega), ha, hq]
      · intro hmq
        simp only [readU16, List.length_take]
        rw [if_pos (by omega)]

lemma good_readU32 : Good readU32 := by
  constructor
  · intro d p a q h
    simp only [readU32] at h
    split at h
    · cases h
    · simp only [Except.ok.injEq, Prod.mk.injEq] at h
      omega
  · intro d p a q m h hpm
    simp only [readU32] at h
    split at h
    · cases h
    case isFalse hrem =>
      simp only [Except.ok.injEq, Prod.mk.injEq] at h
      obtain ⟨ha, hq⟩ := h
      constructor
      · intro hqm
        simp only [readU32, List.length_take]
        rw [if_neg (by omega)]
        rw [getD_take d m p (by omega), getD_take d m (p + 1) (by omega),
          getD_take d m (p + 2) (by omega), getD_take d m (p + 3) (by omega), ha, hq]
      · intro hmq
        simp only [readU32, List.length_take]
        rw [if_pos (by omega)]

lemma good_readI32 : Good readI32 := by
  constructor
  · intro d p a q h
    simp only [readI32] at h
    split at h
    · cases h
    · simp only [Except.ok.injEq, Prod.mk.injEq] at h
      omega
  · intro d p a q m h hpm
    simp only [readI32] at h
    split at h
    · cases h
    case isFalse hrem =>
      simp only [Except.ok.injEq, Prod.mk.injEq] at h
      obtain ⟨ha, hq⟩ := h
      constructor
      · intro hqm
        simp only [readI32, List.length_take]
        rw [if_neg (by omega)]
        rw [getD_take d m p (by omega), getD_take d m (p + 1) (by omega),
          getD_take d m (p + 2) (by omega), getD_take d m (p + 3) (by omega), ha, hq]
      · intro hmq
        simp only [readI32, List.length_take]
        rw [if_pos (by omega)]

lemma good_skipP (n : Nat) : Good (skipP n) := by
  constructor
  · intro d p a q h
    simp only [skipP] at h
    split at h
    · cases h
    · simp only [Except.ok.injEq, Prod.mk.injEq] at h
      omega
  · intro d p a q m h hpm
    simp only [skipP] at h
    split at h
    · cases h
    case isFalse hrem =>
      simp only [Except.ok.injEq, Prod.mk.injEq] at h
      obtain ⟨ha, hq⟩ := h
      constructor
      · intro hqm
        simp only [skipP, List.length_take]
        rw [if_neg (by omega), hq]
      · intro hmq
        simp only [skipP, List.length_take]
        rw [if_pos (by omega)]

lemma good_guardCount (b : Bool) : Good (guardCount b) := by
  constructor
  · intro d p a q h
    simp only [guardCount] at h
    split at h
    · cases h
    · simp only [Except.ok.injEq, Prod.mk.injEq] at h
      omega
  · intro d p a q m h hpm
    simp only [guardCount] at h
    split at h
    · cases h
    case isFalse hb =>
      simp only [Except.ok.injEq, Prod.mk.injEq] at h
      obtain ⟨ha, hq⟩ := h
      refine ⟨fun _ => ?_, fun hmq => absurd hpm (by omega)⟩
      simp only [guardCount]
      rw [if_neg hb, hq]

lemma good_liftBuild (dsc : PrimitiveDescriptor) : Good (liftBuild dsc) := by
  constructor
  · intro d p a q h
    simp only [liftBuild] at h
    split at h
    · simp only [Except.ok.injEq, Prod.mk.injEq] at h
      omega
    · cases h
  · intro d p a q m h hpm
    simp only [liftBuild] at h
    split at h
    case h_1 prim hb =>
      simp only [Except.ok.injEq, Prod.mk.injEq] at h
      obtain ⟨ha, hq⟩ := h
      refine ⟨fun _ => ?_, fun hmq => absurd hpm (by omega)⟩
      simp only [liftBuild]
      rw [hb, ha, hq]
    · cases h

lemma good_pbind {α β : Type} {P : Parser α} {f : α → Parser β}
    (hP : Good P) (hf : ∀ a, Good (f a)) : Good (pbind P f) := by
  obtain ⟨hPm, hPs⟩ := hP
  constructor
  · intro d p b q h
    simp only [pbind] at h
    cases hm1 : P d p with
    | error e => rw [hm1] at h; cases h
    | ok aq =>
      obtain ⟨a, q1⟩ := aq
      rw [hm1] at h
      have h1 := hPm d p a q1 hm1
      have h2 := (hf a).1 d q1 b q h
      omega
  · intro d p b q m h hpm
    simp only [pbind] at h ⊢
    cases hm1 : P d p with
    | error e => rw [hm1] at h; cases h
    | ok aq =>
      obtain ⟨a, q1⟩ := aq
      rw [hm1] at h
      have hq1 := hPm d p a q1 hm1
      have hq2 := (hf a).1 d q1 b q h
      constructor
      · intro hqm
        rw [(hPs d p a q1 m hm1 hpm).1 (by omega)]
        exact ((hf a).2 d q1 b q m h (by omega)).1 hqm
      · intro hmq
        by_cases hc : q1 ≤ m
        · rw [(hPs d p a q1 m hm1 hpm).1 hc]
          exact ((hf a).2 d q1 b q m h hc).2 hmq
        · rw [(hPs d p a q1 m hm1 hpm).2 (by omega)]

lemma good_replicateP {α : Type} (P : Parser α) (hP : Good P) :
    ∀ n, Good (replicateP n P)
  | 0 => good_ppure []
  | n + 1 =>
    good_pbind hP (fun _ =>
      good_pbind (good_replicateP P hP n) (fun _ => good_ppure _))

lemma good_readConnectionList (n : Nat) : Good (readConnectionList n) :=
  good_replicateP _
    (good_pbind good_readU16 (fun _ =>
      good_pbind good_readU16 (fun _ => good_ppure _))) n

lemma good_readInputList (n : Nat) : Good (readInputList n) :=
  good_replicateP _
    (good_pbind good_readU16 (fun _ =>
      good_pbind good_readU16 (fun nameSize =>
        good_pbind (good_skipP nameSize) (fun _ =>
          good_pbind good_readU16 (fun nConn =>
            good_pbind (good_readConnectionList nConn) (fun _ =>
              good_ppure _)))))) n

lemma good_readCell : Good readCell :=
  good_pbind good_readU16 (fun _ =>
    good_pbind good_readU16 (fun nParams =>
      good_pbind (good_guardCount _) (fun _ =>
        good_pbind (good_replicateP _ good_readI32 nParams) (fun _ =>
          good_pbind good_readU16 (fun nOutputs =>
            good_pbind (good_guardCount _) (fun _ =>
              good_pbind
                (good_replicateP _
                  (good_pbind good_readU16 (fun nConn =>
                    good_pbind (good_guardCount _) (fun _ =>
                      good_readConnectionList nConn))) nOutputs)
                (fun _ => good_liftBuild _)))))))

lemma good_fromNetlistP : Good fromNetlistP :=
  good_pbind good_readU16 (fun nPin =>
    good_pbind (good_guardCount _) (fun _ =>
      good_pbind (good_readInputList nPin) (fun _ =>
        good_pbind good_readU16 (fun nSw =>
          good_pbind (good_guardCount _) (fun _ =>
            good_pbind (good_readInputList nSw) (fun _ =>
              good_pbind good_readU32 (fun nCells =>
                good_pbind (good_guardCount _) (fun _ =>
                  good_pbind (good_replicateP _ good_readCell nCells) (fun _ =>
                    good_ppure _)))))))))

/-- C4: when `from_netlist` succeeds on `d` after consuming `k` bytes, every
truncation of `d` below `k` — that is, every cut that leaves the described
netlist incomplete — makes it fail with `InsufficientBytes`, never with
`BadPrimitive` or `CountTooLarge`. -/
theorem c4_truncation_gives_insufficient_bytes (d : List Nat) (sys : EventSystem)
    (k m : Nat) (hok : fromNetlist d = .ok (sys, k)) (hm : m < k) :
    fromNetlist (d.take m) = .error .insufficientBytes :=
  (good_fromNetlistP.2 d 0 sys k m hok (Nat.zero_le m)).2 hm

/-- C4 witness: the empty netlist (8 header bytes) parses consuming 8 bytes;
cutting it to 5 bytes yields `InsufficientBytes`. -/
theorem c4_truncation_witness :
    fromNetlist [0, 0, 0, 0, 0, 0, 0, 0] = .ok (⟨[], [], []⟩, 8)
    ∧ (5 : Nat) < 8
    ∧ fromNetlist (List.take 5 [0, 0, 0, 0, 0, 0, 0, 0]) = .error .insufficientBytes :=
  ⟨rfl, by decide,
    c4_truncation_gives_insufficient_bytes [0, 0, 0, 0, 0, 0, 0, 0] ⟨[], [], []⟩ 8 5
      rfl (by decide)⟩

/-- Inversion of a successful `pbind`: the first parser succeeded and the
continuation succeeded from its end position. -/
lemma pbind_ok {α β : Type} {P : Parser α} {f : α → Parser β} {d : List Nat}
    {p : Nat} {r : β × Nat} (h : pbind P f d p = .ok r) :
    ∃ a q, P d p = .ok (a, q) ∧ f a d q = .ok r := by
  simp only [pbind] at h
  cases hm : P d p with
  | error e => rw [hm] at h; cases h
  | ok aq =>
    obtain ⟨a, q⟩ := aq
    rw [hm] at h
    exact ⟨a, q, rfl, h⟩

/-- A successful `replicateP n` returns exactly `n` items. -/
lemma replicateP_ok_length {α : Type} (P : Parser α) :
    ∀ (n : Nat) (d : List Nat) (p : Nat) (as : List α) (q : Nat),
      replicateP n P d p = .ok (as, q) → as.length = n := by
  intro n
  induction n with
  | zero =>
    intro d p as q h
    simp only [replicateP, ppure, Except.ok.injEq, Prod.mk.injEq] at h
    rw [← h.1]
    rfl
  | succ n ih =>
    intro d p as q h
    obtain ⟨a, q1, h1, h2⟩ := pbind_ok h
    obtain ⟨as1, q2, h3, h4⟩ := pbind_ok h2
    simp only [ppure, Except.ok.injEq, Prod.mk.injEq] at h4
    rw [← h4.1, List.length_cons, ih d q1 as1 q2 h3]

/-- A successful count guard means the count check held. -/
lemma guardCount_ok {b : Bool} {d : List Nat} {p : Nat} {r : Unit × Nat}
    (h : guardCount b d p = .ok r) : b = false := by
  cases b with
  | false => rfl
  | true => simp [guardCount] at h

/-- C6: every `EventSystem` built by a successful `from_netlist` respects the
decoder's limits: at most 32 pin inputs, 256 software inputs and 256 cells. -/
theorem c6_from_netlist_limits (d : List Nat) (sys : EventSystem) (k : Nat)
    (h : fromNetlist d = .ok (sys, k)) :
    sys.input_ports.length ≤ 32 ∧ sys.software_ports.length ≤ 256
      ∧ sys.cells.length ≤ 256 := by
  unfold fromNetlist fromNetlistP at h
  obtain ⟨nPin, q1, h1, h⟩ := pbind_ok h
  obtain ⟨u1, q2, hg1, h⟩ := pbind_ok h
  obtain ⟨pinRecs, q3, hp, h⟩ := pbind_ok h
  obtain ⟨nSw, q4, h2, h⟩ := pbind_ok h
  obtain ⟨u2, q5, hg2, h⟩ := pbind_ok h
  obtain ⟨swRecs, q6, hs, h⟩ := pbind_ok h
  obtain ⟨nCells, q7, h3, h⟩ := pbind_ok h
  obtain ⟨u3, q8, hg3, h⟩ := pbind_ok h
  obtain ⟨cells, q9, hc, h⟩ := pbind_ok h
  simp only [ppure, Except.ok.injEq, Prod.mk.injEq] at h
  have e1 := guardCount_ok hg1
  have e2 := guardCount_ok hg2
  have e3 := guardCount_ok hg3
  simp only [decide_eq_false_iff_not, Nat.not_lt] at e1 e2 e3
  have l1 := replicateP_ok_length _ nPin d q2 pinRecs q3 hp
  have l2 := replicateP_ok_length _ nSw d q5 swRecs q6 hs
  have l3 := replicateP_ok_length _ nCells d q8 cells q9 hc
  rw [← h.1]
  simp only [List.length_map]
  omega

/-- C6 witness: the limits evaluated on the empty netlist. -/
theorem c6_limits_witness :
    (EventSystem.mk [] [] []).input_ports.length ≤ 32
    ∧ (EventSystem.mk [] [] []).software_ports.length ≤ 256
    ∧ (EventSystem.mk [] [] []).cells.length ≤ 256 :=
  c6_from_netlist_limits [0, 0, 0, 0, 0, 0, 0, 0] ⟨[], [], []⟩ 8 rfl

end Switchboard
